import Mathlib

/-!
Shallow embedding of the `sdge-bill` utility-bill tracker.

The repository has two near-duplicate Flask entry points over one SQLite table:
* `src/app.py` — server-rendered form UI (form-encoded input, `parse_float`
  coercion, the `/history` chart view);
* `src/backend/app.py` — JSON API (`/api/bills` CRUD).

The store is modelled as the list of rows of the `bills` table plus the
AUTOINCREMENT counter.  SQLite cells are dynamically typed, so a stored numeric
column holds whatever value the app bound into the INSERT/UPDATE statement
(the form app always binds a number, the JSON app binds the client's JSON
value verbatim); the storage engine itself is treated as an opaque relational
store, per the specification's scope.  Timestamps (`CURRENT_TIMESTAMP`) are
modelled by an explicit `now : Nat` argument.  Python floats are idealised as
exact rationals.
-/

namespace SdgeBill

/-- Numeric value of a list of decimal digit characters, most significant first. -/
def digitsVal (l : List Char) : Nat :=
  l.foldl (fun n c => 10 * n + (c.toNat - 48)) 0

/-- Surrounding whitespace removal, as Python `float()` applies to its string
argument. -/
def stripChars (l : List Char) : List Char :=
  ((l.dropWhile Char.isWhitespace).reverse.dropWhile Char.isWhitespace).reverse

/-- Model of Python `float(s)` on a string, over ℚ: optional surrounding
whitespace, optional sign, decimal digits with optional fractional part and
optional decimal exponent.  (`inf`/`nan` and underscore digit separators are
not modelled; no claim involves them.) -/
def pyFloat (s : String) : Option ℚ :=
  let cs := stripChars s.toList
  let sgn : ℚ := match cs with
    | '-' :: _ => -1
    | _ => 1
  let cs1 : List Char := match cs with
    | '+' :: r => r
    | '-' :: r => r
    | r => r
  let intPart := cs1.takeWhile Char.isDigit
  let cs2 := cs1.dropWhile Char.isDigit
  let fracPart : List Char := match cs2 with
    | '.' :: r => r.takeWhile Char.isDigit
    | _ => []
  let cs3 : List Char := match cs2 with
    | '.' :: r => r.dropWhile Char.isDigit
    | r => r
  if intPart.isEmpty && fracPart.isEmpty then none
  else
    let mant : ℚ :=
      sgn * ((digitsVal intPart : ℚ) + (digitsVal fracPart : ℚ) / (10 : ℚ) ^ fracPart.length)
    match cs3 with
    | [] => some mant
    | e :: r =>
      if e = 'e' ∨ e = 'E' then
        let esgn : Int := match r with
          | '-' :: _ => -1
          | _ => 1
        let r1 : List Char := match r with
          | '+' :: r2 => r2
          | '-' :: r2 => r2
          | r2 => r2
        let eDigits := r1.takeWhile Char.isDigit
        let r2 := r1.dropWhile Char.isDigit
        if eDigits.isEmpty ∨ !r2.isEmpty then none
        else some (mant * (10 : ℚ) ^ (esgn * (digitsVal eDigits : Int)))
      else none

/-- Python run-time values as they can reach `parse_float`: `None`, a string,
a numeric value, or any other object (on which `float()` raises `TypeError`). -/
inductive PyValue where
  | pyNone
  | str (s : String)
  | num (q : ℚ)
  | obj
deriving DecidableEq, Repr

/-- Python `float(value)`: succeeds on numbers and parseable strings; a raised
`ValueError`/`TypeError` is modelled as `none`. -/
def pyToFloat : PyValue → Option ℚ
  | PyValue.pyNone => none
  | PyValue.str s => pyFloat s
  | PyValue.num q => some q
  | PyValue.obj => none

/-- `parse_float` from `src/app.py` lines 63-70: convert a form value to a float,
returning the default on the empty string, `None`, or any conversion failure. -/
def parse_float (value : PyValue) (default : ℚ) : ℚ :=
  if value = PyValue.str "" ∨ value = PyValue.pyNone then default
  else
    match pyToFloat value with
    | some q => q
    | none => default

/-- A dynamically-typed SQLite cell value as bound by the two apps: the form app
binds numbers (`parse_float` results); the JSON app binds the client's JSON
scalar verbatim. -/
inductive SqlValue where
  | num (q : ℚ)
  | str (s : String)
  | null
deriving DecidableEq, Repr

/-- One row of the `bills` table (schema in `init_db`, both entry points):
surrogate key `id`, natural key `date` (TEXT NOT NULL UNIQUE), nine numeric
cost/usage columns, and the two timestamps. -/
structure Bill where
  id : Nat
  date : String
  gas_cost : SqlValue
  electricity_delivery_cost : SqlValue
  electricity_generation_cost : SqlValue
  other_cost : SqlValue
  gas_therms : SqlValue
  electricity_on_peak_kwh : SqlValue
  electricity_off_peak_kwh : SqlValue
  electricity_super_off_peak_kwh : SqlValue
  created_at : Nat
  updated_at : Nat
deriving DecidableEq, Repr

/-- The `bills` table plus the AUTOINCREMENT counter feeding `id`. -/
structure Store where
  bills : List Bill
  nextId : Nat
deriving DecidableEq, Repr

/-- The freshly-initialised database (`init_db`): empty table, ids start at 1. -/
def emptyStore : Store := { bills := [], nextId := 1 }

/-- `SELECT * FROM bills WHERE id = ?` returning the (unique) matching row. -/
def findById (s : Store) (bill_id : Nat) : Option Bill :=
  s.bills.find? (fun b => b.id == bill_id)

/-- Whether some row already holds this date (the UNIQUE constraint's test for
an INSERT). -/
def dateTaken (s : Store) (d : String) : Bool :=
  s.bills.any (fun b => b.date == d)

/-- The JSON body of a create/update request to `src/backend/app.py`: each key
may be absent (`none`); `date`, when present, is a string; the nine numeric
keys may hold any JSON scalar. -/
structure RequestData where
  date : Option String
  gas_cost : Option SqlValue
  electricity_delivery_cost : Option SqlValue
  electricity_generation_cost : Option SqlValue
  other_cost : Option SqlValue
  gas_therms : Option SqlValue
  electricity_on_peak_kwh : Option SqlValue
  electricity_off_peak_kwh : Option SqlValue
  electricity_super_off_peak_kwh : Option SqlValue
deriving DecidableEq, Repr

/-- `data.get(key, 0)`: the supplied JSON value, or the number 0 when the key
is absent. -/
def getD0 (v : Option SqlValue) : SqlValue := v.getD (SqlValue.num 0)

/-- An HTTP response from the JSON app: a bill payload, a message payload, an
error payload, or a JSON `null` body, each with its status code. -/
inductive Response where
  | billJson (status : Nat) (b : Bill)
  | message (status : Nat) (msg : String)
  | errorJson (status : Nat) (msg : String)
  | nullJson (status : Nat)
deriving DecidableEq, Repr

/-- The row inserted by the JSON app's INSERT statement: generated id, the
bound JSON values (absent keys default to 0), server-default timestamps. -/
def newRow (d : RequestData) (dt : String) (bid now : Nat) : Bill :=
  { id := bid
    date := dt
    gas_cost := getD0 d.gas_cost
    electricity_delivery_cost := getD0 d.electricity_delivery_cost
    electricity_generation_cost := getD0 d.electricity_generation_cost
    other_cost := getD0 d.other_cost
    gas_therms := getD0 d.gas_therms
    electricity_on_peak_kwh := getD0 d.electricity_on_peak_kwh
    electricity_off_peak_kwh := getD0 d.electricity_off_peak_kwh
    electricity_super_off_peak_kwh := getD0 d.electricity_super_off_peak_kwh
    created_at := now
    updated_at := now }

/-- `create_bill` from `src/backend/app.py` lines 86-119.  `data = none` models
a missing/empty JSON body (`not data`).  The UNIQUE constraint on `date` is
modelled as a pre-check with the same observable outcome as the IntegrityError
path (the INSERT is a single atomic statement, so a constraint failure leaves
the table unchanged). -/
def create_bill (data : Option RequestData) (now : Nat) (s : Store) : Response × Store :=
  match data with
  | none => (Response.errorJson 400 "Date is required", s)
  | some d =>
    match d.date with
    | none => (Response.errorJson 400 "Date is required", s)
    | some dt =>
      if dateTaken s dt then
        (Response.errorJson 400 "A bill with this date already exists", s)
      else
        let b : Bill := newRow d dt s.nextId now
        (Response.billJson 201 b, { bills := s.bills ++ [b], nextId := s.nextId + 1 })

/-- `get_bill` from `src/backend/app.py` lines 75-83. -/
def get_bill (bill_id : Nat) (s : Store) : Response :=
  match findById s bill_id with
  | none => Response.errorJson 404 "Bill not found"
  | some b => Response.billJson 200 b

/-- The row written by `UPDATE bills SET ... WHERE id = ?` for a matching row:
`id` and `created_at` are not in the SET list; `updated_at` becomes
CURRENT_TIMESTAMP. -/
def updateRow (b : Bill) (dt : String) (d : RequestData) (now : Nat) : Bill :=
  { id := b.id
    date := dt
    gas_cost := getD0 d.gas_cost
    electricity_delivery_cost := getD0 d.electricity_delivery_cost
    electricity_generation_cost := getD0 d.electricity_generation_cost
    other_cost := getD0 d.other_cost
    gas_therms := getD0 d.gas_therms
    electricity_on_peak_kwh := getD0 d.electricity_on_peak_kwh
    electricity_off_peak_kwh := getD0 d.electricity_off_peak_kwh
    electricity_super_off_peak_kwh := getD0 d.electricity_super_off_peak_kwh
    created_at := b.created_at
    updated_at := now }

/-- `update_bill` from `src/backend/app.py` lines 122-169.  `data.get("date")`
may be `None`, which makes the UPDATE violate the NOT NULL constraint on
`date`; SQLite raises IntegrityError, which this route reports with the
duplicate-date message.  Both that and the UNIQUE check (a collision with a
row of a different id) are modelled as pre-checks with the same observable
outcome as the atomic failing statement. -/
def update_bill (bill_id : Nat) (data : Option RequestData) (now : Nat) (s : Store) :
    Response × Store :=
  match data with
  | none => (Response.errorJson 400 "No data provided", s)
  | some d =>
    match findById s bill_id with
    | none => (Response.errorJson 404 "Bill not found", s)
    | some _ =>
      match d.date with
      | none => (Response.errorJson 400 "A bill with this date already exists", s)
      | some dt =>
        if s.bills.any (fun b => b.id != bill_id && b.date == dt) then
          (Response.errorJson 400 "A bill with this date already exists", s)
        else
          let s2 : Store :=
            { bills := s.bills.map (fun b => if b.id == bill_id then updateRow b dt d now else b)
              nextId := s.nextId }
          match findById s2 bill_id with
          | some b2 => (Response.billJson 200 b2, s2)
          | none => (Response.nullJson 200, s2)

/-- `delete_bill` from `src/backend/app.py` lines 172-184. -/
def delete_bill (bill_id : Nat) (s : Store) : Response × Store :=
  match findById s bill_id with
  | none => (Response.errorJson 404 "Bill not found", s)
  | some _ =>
    (Response.message 200 "Bill deleted successfully",
      { bills := s.bills.filter (fun b => b.id != bill_id), nextId := s.nextId })

/-- `request.form` for the bill form routes in `src/app.py`: each field is
either absent (`none`) or a string. -/
structure FormData where
  date : Option String
  gas_cost : Option String
  electricity_delivery_cost : Option String
  electricity_generation_cost : Option String
  other_cost : Option String
  gas_therms : Option String
  electricity_on_peak_kwh : Option String
  electricity_off_peak_kwh : Option String
  electricity_super_off_peak_kwh : Option String
deriving DecidableEq, Repr

/-- The Python value returned by `request.form.get(key)`: `None` when the key
is absent, the string otherwise. -/
def formVal : Option String → PyValue
  | none => PyValue.pyNone
  | some s => PyValue.str s

/-- The value bound for one numeric column by the form routes:
`parse_float(request.form.get(key))`, always a number. -/
def formNum (v : Option String) : SqlValue :=
  SqlValue.num (parse_float (formVal v) 0)

/-- Outcome of a form-submission route in `src/app.py`: redirect to the list
page on success, re-render the form with an inline error message otherwise,
or a plain-text 404. -/
inductive FormResponse where
  | redirectToList
  | formError (msg : String)
  | notFoundPage
deriving DecidableEq, Repr

/-- The row inserted by the form app's INSERT statement: every numeric column
is bound to `parse_float(request.form.get(key))`. -/
def newRowForm (form : FormData) (dt : String) (bid now : Nat) : Bill :=
  { id := bid
    date := dt
    gas_cost := formNum form.gas_cost
    electricity_delivery_cost := formNum form.electricity_delivery_cost
    electricity_generation_cost := formNum form.electricity_generation_cost
    other_cost := formNum form.other_cost
    gas_therms := formNum form.gas_therms
    electricity_on_peak_kwh := formNum form.electricity_on_peak_kwh
    electricity_off_peak_kwh := formNum form.electricity_off_peak_kwh
    electricity_super_off_peak_kwh := formNum form.electricity_super_off_peak_kwh
    created_at := now
    updated_at := now }

/-- `create_bill_form` from `src/app.py` lines 234-272.  `if not bill_date:`
is true exactly when the field is absent or the empty string.  The UNIQUE
constraint is modelled as a pre-check with the same observable outcome as the
IntegrityError path. -/
def create_bill_form (form : FormData) (now : Nat) (s : Store) : FormResponse × Store :=
  match form.date with
  | none => (FormResponse.formError "Date is required", s)
  | some dt =>
    if dt = "" then (FormResponse.formError "Date is required", s)
    else if dateTaken s dt then
      (FormResponse.formError "A bill with this date already exists", s)
    else
      let b : Bill := newRowForm form dt s.nextId now
      (FormResponse.redirectToList, { bills := s.bills ++ [b], nextId := s.nextId + 1 })

/-- The row written by the form app's UPDATE statement for a matching row. -/
def updateRowForm (b : Bill) (dt : String) (form : FormData) (now : Nat) : Bill :=
  { id := b.id
    date := dt
    gas_cost := formNum form.gas_cost
    electricity_delivery_cost := formNum form.electricity_delivery_cost
    electricity_generation_cost := formNum form.electricity_generation_cost
    other_cost := formNum form.other_cost
    gas_therms := formNum form.gas_therms
    electricity_on_peak_kwh := formNum form.electricity_on_peak_kwh
    electricity_off_peak_kwh := formNum form.electricity_off_peak_kwh
    electricity_super_off_peak_kwh := formNum form.electricity_super_off_peak_kwh
    created_at := b.created_at
    updated_at := now }

/-- `update_bill_form` from `src/app.py` lines 275-330: required-date check
first (no store access on failure), then the existence check, then the UPDATE
with the UNIQUE constraint modelled as a pre-check. -/
def update_bill_form (bill_id : Nat) (form : FormData) (now : Nat) (s : Store) :
    FormResponse × Store :=
  match form.date with
  | none => (FormResponse.formError "Date is required", s)
  | some dt =>
    if dt = "" then (FormResponse.formError "Date is required", s)
    else
      match findById s bill_id with
      | none => (FormResponse.notFoundPage, s)
      | some _ =>
        if s.bills.any (fun b => b.id != bill_id && b.date == dt) then
          (FormResponse.formError "A bill with this date already exists", s)
        else
          (FormResponse.redirectToList,
            { bills := s.bills.map (fun b =>
                if b.id == bill_id then updateRowForm b dt form now else b)
              nextId := s.nextId })

/-- Descending-by-date order used by the history query (`ORDER BY date DESC`).
SQLite compares TEXT cells bytewise, which agrees with Lean's `String` order
on UTF-8 strings. -/
def dateDescLe (a b : Bill) : Bool := decide (b.date ≤ a.date)

/-- `history` from `src/app.py` lines 180-229: rows `ORDER BY date DESC`, with
`LIMIT 13` unless `show_all`, then reversed to chronological order.
`windowed = true` corresponds to the default view (`show_all = false`).  Only
the bill rows are modelled; the parallel per-field sequences the route passes
to the template are positionwise projections of this list. -/
def history (windowed : Bool) (s : Store) : List Bill :=
  let sorted := s.bills.mergeSort dateDescLe
  let selected := if windowed then sorted.take 13 else sorted
  selected.reverse

/-- One mutating HTTP request against the shared store, through either entry
point. -/
inductive Op where
  | apiCreate (data : Option RequestData) (now : Nat)
  | apiUpdate (bill_id : Nat) (data : Option RequestData) (now : Nat)
  | apiDelete (bill_id : Nat)
  | formCreate (form : FormData) (now : Nat)
  | formUpdate (bill_id : Nat) (form : FormData) (now : Nat)

/-- The store state after serving one request (error responses leave the store
unchanged). -/
def applyOp (s : Store) (op : Op) : Store :=
  match op with
  | Op.apiCreate data now => (create_bill data now s).2
  | Op.apiUpdate i data now => (update_bill i data now s).2
  | Op.apiDelete i => (delete_bill i s).2
  | Op.formCreate f now => (create_bill_form f now s).2
  | Op.formUpdate i f now => (update_bill_form i f now s).2

/-- Store states reachable from the freshly-initialised database by serving
requests. -/
def Reachable (s : Store) : Prop :=
  ∃ ops : List Op, s = ops.foldl applyOp emptyStore

/-- The schema invariants maintained by every route: `id` is a primary key fed
by the AUTOINCREMENT counter, and `date` is UNIQUE. -/
def StoreInv (s : Store) : Prop :=
  (s.bills.map Bill.id).Nodup ∧ (∀ b ∈ s.bills, b.id < s.nextId) ∧
    (s.bills.map Bill.date).Nodup

/-- A JSON body whose only key is the given `date`. -/
def dateOnlyReq (d : Option String) : RequestData :=
  { date := d
    gas_cost := none
    electricity_delivery_cost := none
    electricity_generation_cost := none
    other_cost := none
    gas_therms := none
    electricity_on_peak_kwh := none
    electricity_off_peak_kwh := none
    electricity_super_off_peak_kwh := none }

/-- A submitted form whose only field is the given `date`. -/
def dateOnlyForm (d : Option String) : FormData :=
  { date := d
    gas_cost := none
    electricity_delivery_cost := none
    electricity_generation_cost := none
    other_cost := none
    gas_therms := none
    electricity_on_peak_kwh := none
    electricity_off_peak_kwh := none
    electricity_super_off_peak_kwh := none }

/-- A store holding one bill, date 2024-01-01, id 1 (as created by the JSON
app at time 1). -/
def storeA : Store := (create_bill (some (dateOnlyReq (some "2024-01-01"))) 1 emptyStore).2

/-- `storeA` plus a second bill, date 2024-02-02, id 2 (created at time 2). -/
def storeAB : Store := (create_bill (some (dateOnlyReq (some "2024-02-02"))) 2 storeA).2

end SdgeBill

open SdgeBill

/-- Claim C10: `parse_float` is total — for every input value it returns a
number without raising: the default 0 when the value is `None`, the empty
string, or fails to convert to float, and the converted float otherwise. -/
theorem C10_parse_float_total (v : PyValue) :
    ((v = PyValue.pyNone ∨ v = PyValue.str "" ∨ pyToFloat v = none) →
      parse_float v 0 = 0) ∧
    (∀ q : ℚ, pyToFloat v = some q → parse_float v 0 = q) := by
  constructor
  · rintro (rfl | rfl | h)
    · rfl
    · rfl
    · by_cases hv : v = PyValue.str "" ∨ v = PyValue.pyNone
      · simp [parse_float, hv]
      · simp [parse_float, hv, h]
  · intro q hq
    have hne : ¬(v = PyValue.str "" ∨ v = PyValue.pyNone) := by
      rintro (rfl | rfl)
      · rw [show pyToFloat (PyValue.str "") = none from rfl] at hq
        exact Option.noConfusion hq
      · exact Option.noConfusion hq
    simp [parse_float, hne, hq]

/-- Witness for C10 at concrete inputs: an unparseable string coerces to 0 and
a parseable one converts. -/
theorem C10_witness :
    parse_float (PyValue.str "not-a-number") 0 = 0 ∧
    parse_float (PyValue.num (29 / 4)) 0 = 29 / 4 :=
  ⟨(C10_parse_float_total (PyValue.str "not-a-number")).1
      (Or.inr (Or.inr (by decide))),
    (C10_parse_float_total (PyValue.num (29 / 4))).2 (29 / 4) rfl⟩

/-- Claim C1, counterexample: on the JSON entry point (`create_bill` in
`src/backend/app.py`), creating a bill with `gas_cost = "not-a-number"`
stores that string verbatim rather than the default 0, so the claim's
"every create request" fails. -/
theorem C1_counterexample :
    (create_bill
        (some { dateOnlyReq (some "2024-01-01") with
                  gas_cost := some (SqlValue.str "not-a-number") })
        0 emptyStore).2.bills.map Bill.gas_cost = [SqlValue.str "not-a-number"] ∧
    SqlValue.str "not-a-number" ≠ SqlValue.num 0 :=
  ⟨rfl, by decide⟩

/-- Claim C1 as amended: coercion is per entry point.  The form app coerces
every numeric field through `parse_float` — an absent, empty, or unparseable
value is stored as the number 0 and the request still succeeds; the JSON app
substitutes 0 only for absent keys and binds supplied values verbatim. -/
theorem C1_coercion_per_entry_point :
    (∀ v : Option String,
        v = none ∨ v = some "" ∨ pyFloat (v.getD "") = none →
        formNum v = SqlValue.num 0) ∧
    (∀ form now s dt, form.date = some dt → dt ≠ "" → dateTaken s dt = false →
        create_bill_form form now s =
          (FormResponse.redirectToList,
            { bills := s.bills ++ [newRowForm form dt s.nextId now]
              nextId := s.nextId + 1 }) ∧
        (newRowForm form dt s.nextId now).gas_cost = formNum form.gas_cost) ∧
    (∀ d now s dt, d.date = some dt → dateTaken s dt = false →
        create_bill (some d) now s =
          (Response.billJson 201 (newRow d dt s.nextId now),
            { bills := s.bills ++ [newRow d dt s.nextId now]
              nextId := s.nextId + 1 }) ∧
        (newRow d dt s.nextId now).gas_cost = getD0 d.gas_cost) ∧
    (getD0 none = SqlValue.num 0 ∧ ∀ w : SqlValue, getD0 (some w) = w) := by
  refine ⟨?_, ?_, ?_, rfl, fun w => rfl⟩
  · rintro v (rfl | rfl | h)
    · rfl
    · rfl
    · match v with
      | none => rfl
      | some st =>
        by_cases hs : st = ""
        · subst hs; rfl
        · simp only [Option.getD_some] at h
          simp [formNum, parse_float, formVal, pyToFloat, hs, h]
  · intro form now s dt hdt hne htaken
    refine ⟨?_, rfl⟩
    simp [create_bill_form, hdt, hne, htaken]
  · intro d now s dt hdt htaken
    refine ⟨?_, rfl⟩
    simp [create_bill, hdt, htaken]

/-- Witness for the amended C1 at concrete inputs: the form app stores 0 for
an unparseable `gas_cost` while redirecting, and the JSON app creates with a
fresh date. -/
theorem C1_witness :
    formNum (some "not-a-number") = SqlValue.num 0 ∧
    (create_bill_form
        { dateOnlyForm (some "2024-01-01") with gas_cost := some "not-a-number" }
        5 emptyStore =
      (FormResponse.redirectToList,
        { bills := emptyStore.bills ++
            [newRowForm
              { dateOnlyForm (some "2024-01-01") with gas_cost := some "not-a-number" }
              "2024-01-01" emptyStore.nextId 5]
          nextId := emptyStore.nextId + 1 }) ∧
      (newRowForm
          { dateOnlyForm (some "2024-01-01") with gas_cost := some "not-a-number" }
          "2024-01-01" emptyStore.nextId 5).gas_cost =
        formNum (some "not-a-number")) ∧
    (create_bill (some (dateOnlyReq (some "2024-01-02"))) 5 emptyStore =
      (Response.billJson 201 (newRow (dateOnlyReq (some "2024-01-02")) "2024-01-02" emptyStore.nextId 5),
        { bills := emptyStore.bills ++
            [newRow (dateOnlyReq (some "2024-01-02")) "2024-01-02" emptyStore.nextId 5]
          nextId := emptyStore.nextId + 1 }) ∧
      (newRow (dateOnlyReq (some "2024-01-02")) "2024-01-02" emptyStore.nextId 5).gas_cost =
        getD0 (dateOnlyReq (some "2024-01-02")).gas_cost) :=
  ⟨C1_coercion_per_entry_point.1 (some "not-a-number") (Or.inr (Or.inr (by decide))),
    C1_coercion_per_entry_point.2.1
      { dateOnlyForm (some "2024-01-01") with gas_cost := some "not-a-number" }
      5 emptyStore "2024-01-01" rfl (by decide) (by decide),
    C1_coercion_per_entry_point.2.2.1 (dateOnlyReq (some "2024-01-02"))
      5 emptyStore "2024-01-02" rfl (by decide)⟩

/-- Claim C3, counterexample: on the JSON entry point, a create request whose
`date` field is present but empty succeeds (201 with the new bill) and writes
a row with date `""`, instead of failing with the validation error. -/
theorem C3_counterexample :
    (create_bill (some (dateOnlyReq (some ""))) 0 emptyStore).1 =
      Response.billJson 201 (newRow (dateOnlyReq (some "")) "" 1 0) ∧
    (create_bill (some (dateOnlyReq (some ""))) 0 emptyStore).2.bills.map Bill.date = [""] ∧
    Response.billJson 201 (newRow (dateOnlyReq (some "")) "" 1 0) ≠
      Response.errorJson 400 "Date is required" :=
  ⟨rfl, rfl, by decide⟩

/-- Claim C3 as amended: the required-date rule on create is per entry point.
The form app rejects an absent or empty date with "Date is required" and does
not touch storage; the JSON app rejects only a missing body or an absent
`date` key, and accepts an empty-string date, inserting a row with date `""`. -/
theorem C3_required_date_create :
    (∀ form now s, form.date = none ∨ form.date = some "" →
        create_bill_form form now s = (FormResponse.formError "Date is required", s)) ∧
    (∀ now s, create_bill none now s = (Response.errorJson 400 "Date is required", s)) ∧
    (∀ d now s, d.date = none →
        create_bill (some d) now s = (Response.errorJson 400 "Date is required", s)) ∧
    (∀ d now s, d.date = some "" → dateTaken s "" = false →
        create_bill (some d) now s =
          (Response.billJson 201 (newRow d "" s.nextId now),
            { bills := s.bills ++ [newRow d "" s.nextId now], nextId := s.nextId + 1 })) := by
  refine ⟨?_, fun now s => rfl, ?_, ?_⟩
  · rintro form now s (h | h) <;> simp [create_bill_form, h]
  · intro d now s h
    simp [create_bill, h]
  · intro d now s h htaken
    simp [create_bill, h, htaken]

/-- Witness for the amended C3 at concrete inputs: empty-date form create is
rejected with the store unchanged; JSON create with an absent date key is
rejected; JSON create with an empty date succeeds against the empty store. -/
theorem C3_witness :
    create_bill_form (dateOnlyForm (some "")) 3 storeA =
      (FormResponse.formError "Date is required", storeA) ∧
    create_bill (some (dateOnlyReq none)) 3 storeA =
      (Response.errorJson 400 "Date is required", storeA) ∧
    create_bill (some (dateOnlyReq (some ""))) 3 emptyStore =
      (Response.billJson 201 (newRow (dateOnlyReq (some "")) "" emptyStore.nextId 3),
        { bills := emptyStore.bills ++ [newRow (dateOnlyReq (some "")) "" emptyStore.nextId 3]
          nextId := emptyStore.nextId + 1 }) :=
  ⟨C3_required_date_create.1 (dateOnlyForm (some "")) 3 storeA (Or.inr rfl),
    C3_required_date_create.2.2.1 (dateOnlyReq none) 3 storeA rfl,
    C3_required_date_create.2.2.2 (dateOnlyReq (some "")) 3 emptyStore rfl (by decide)⟩

/-- Claim C2, counterexample: on the JSON entry point, updating existing bill
1 with an empty `date` succeeds and overwrites the stored date with `""`,
instead of failing with the validation error before touching storage. -/
theorem C2_counterexample :
    storeA.bills.map Bill.date = ["2024-01-01"] ∧
    (update_bill 1 (some (dateOnlyReq (some ""))) 2 storeA).2.bills.map Bill.date = [""] ∧
    ("" : String) ≠ "2024-01-01" :=
  ⟨rfl, rfl, by decide⟩

/-- Claim C2 as amended: the required-date rule on update is per entry point.
The form app rejects an absent or empty date with "Date is required" before
touching storage, for every bill id; the JSON app rejects an absent `date`
key only through the NOT NULL constraint, reporting the duplicate-date error,
and accepts an empty-string date, overwriting the stored date with `""`. -/
theorem C2_required_date_update :
    (∀ i form now s, form.date = none ∨ form.date = some "" →
        update_bill_form i form now s = (FormResponse.formError "Date is required", s)) ∧
    (∀ i d now s b, findById s i = some b → d.date = none →
        update_bill i (some d) now s =
          (Response.errorJson 400 "A bill with this date already exists", s)) ∧
    (∀ i d now s b, findById s i = some b → d.date = some "" →
        s.bills.any (fun b2 => b2.id != i && b2.date == "") = false →
        (update_bill i (some d) now s).2.bills =
          s.bills.map (fun b2 => if b2.id == i then updateRow b2 "" d now else b2)) := by
  refine ⟨?_, ?_, ?_⟩
  · rintro i form now s (h | h) <;> simp [update_bill_form, h]
  · intro i d now s b hfind h
    simp [update_bill, hfind, h]
  · intro i d now s b hfind h hany
    simp [update_bill, hfind, h, hany]
    split <;> rfl

/-- Witness for the amended C2 at concrete inputs on `storeA` (bill 1 exists):
empty-date form update is rejected with the store unchanged; JSON update with
an absent date key reports the duplicate-date error; JSON update with an
empty date overwrites the row. -/
theorem C2_witness :
    update_bill_form 1 (dateOnlyForm (some "")) 2 storeA =
      (FormResponse.formError "Date is required", storeA) ∧
    update_bill 1 (some (dateOnlyReq none)) 2 storeA =
      (Response.errorJson 400 "A bill with this date already exists", storeA) ∧
    (update_bill 1 (some (dateOnlyReq (some ""))) 2 storeA).2.bills =
      storeA.bills.map (fun b2 =>
        if b2.id == 1 then updateRow b2 "" (dateOnlyReq (some "")) 2 else b2) :=
  ⟨C2_required_date_update.1 1 (dateOnlyForm (some "")) 2 storeA (Or.inr rfl),
    C2_required_date_update.2.1 1 (dateOnlyReq none) 2 storeA
      (newRow (dateOnlyReq (some "2024-01-01")) "2024-01-01" 1 1) rfl rfl,
    C2_required_date_update.2.2 1 (dateOnlyReq (some "")) 2 storeA
      (newRow (dateOnlyReq (some "2024-01-01")) "2024-01-01" 1 1) rfl rfl (by decide)⟩

/-- Claim C4: updating bill A's date to a date already held by a different
existing bill B fails with the unique-constraint error on both entry points,
and the store — in particular bill A's record, every field included — is
unchanged. -/
theorem C4_update_conflict :
    (∀ i d now s a dt b, findById s i = some a → d.date = some dt →
        b ∈ s.bills → b.id ≠ i → b.date = dt →
        update_bill i (some d) now s =
          (Response.errorJson 400 "A bill with this date already exists", s)) ∧
    (∀ i form now s a dt b, findById s i = some a → form.date = some dt → dt ≠ "" →
        b ∈ s.bills → b.id ≠ i → b.date = dt →
        update_bill_form i form now s =
          (FormResponse.formError "A bill with this date already exists", s)) := by
  constructor
  · intro i d now s a dt b hfind hdt hb hbi hbd
    have hany : s.bills.any (fun b2 => b2.id != i && b2.date == dt) = true :=
      List.any_eq_true.mpr ⟨b, hb, by simp [hbi, hbd]⟩
    simp [update_bill, hfind, hdt, hany]
  · intro i form now s a dt b hfind hdt hne hb hbi hbd
    have hany : s.bills.any (fun b2 => b2.id != i && b2.date == dt) = true :=
      List.any_eq_true.mpr ⟨b, hb, by simp [hbi, hbd]⟩
    simp [update_bill_form, hfind, hdt, hne, hany]

/-- Witness for C4 on `storeAB` (bill 1 dated 2024-01-01, bill 2 dated
2024-02-02): updating bill 1 to bill 2's date fails on both entry points with
the store unchanged. -/
theorem C4_witness :
    update_bill 1 (some (dateOnlyReq (some "2024-02-02"))) 9 storeAB =
      (Response.errorJson 400 "A bill with this date already exists", storeAB) ∧
    update_bill_form 1 (dateOnlyForm (some "2024-02-02")) 9 storeAB =
      (FormResponse.formError "A bill with this date already exists", storeAB) :=
  ⟨C4_update_conflict.1 1 (dateOnlyReq (some "2024-02-02")) 9 storeAB
      (newRow (dateOnlyReq (some "2024-01-01")) "2024-01-01" 1 1) "2024-02-02"
      (newRow (dateOnlyReq (some "2024-02-02")) "2024-02-02" 2 2)
      rfl rfl (by decide) (by decide) rfl,
    C4_update_conflict.2 1 (dateOnlyForm (some "2024-02-02")) 9 storeAB
      (newRow (dateOnlyReq (some "2024-01-01")) "2024-01-01" 1 1) "2024-02-02"
      (newRow (dateOnlyReq (some "2024-02-02")) "2024-02-02" 2 2)
      rfl rfl (by decide) (by decide) (by decide) rfl⟩

/-- Claim C9: `delete(id)` fails with NotFound when no bill with that id
exists, and otherwise removes the bill permanently; after a successful delete,
`get(id)` returns NotFound and a second `delete(id)` reports NotFound. -/
theorem C9_delete_semantics (i : Nat) (s : Store) :
    (findById s i = none →
        delete_bill i s = (Response.errorJson 404 "Bill not found", s)) ∧
    (∀ a, findById s i = some a →
        delete_bill i s =
          (Response.message 200 "Bill deleted successfully",
            { bills := s.bills.filter (fun b => b.id != i), nextId := s.nextId }) ∧
        get_bill i (delete_bill i s).2 = Response.errorJson 404 "Bill not found" ∧
        delete_bill i (delete_bill i s).2 =
          (Response.errorJson 404 "Bill not found", (delete_bill i s).2)) := by
  constructor
  · intro h
    simp [delete_bill, h]
  · intro a h
    have h1 : delete_bill i s =
        (Response.message 200 "Bill deleted successfully",
          { bills := s.bills.filter (fun b => b.id != i), nextId := s.nextId }) := by
      simp [delete_bill, h]
    have hnone :
        findById { bills := s.bills.filter (fun b => b.id != i), nextId := s.nextId } i =
          none := by
      apply List.find?_eq_none.mpr
      intro x hx
      have hx2 := (List.mem_filter.mp hx).2
      simpa using hx2
    refine ⟨h1, ?_, ?_⟩
    · rw [h1]
      simp [get_bill, hnone]
    · rw [h1]
      simp [delete_bill, hnone]

/-- Witness for C9 at concrete inputs: deleting absent id 5 from `storeA`
reports NotFound; deleting bill 1 succeeds, after which get and a second
delete report NotFound. -/
theorem C9_witness :
    delete_bill 5 storeA = (Response.errorJson 404 "Bill not found", storeA) ∧
    (delete_bill 1 storeA =
        (Response.message 200 "Bill deleted successfully",
          { bills := storeA.bills.filter (fun b => b.id != 1), nextId := storeA.nextId }) ∧
      get_bill 1 (delete_bill 1 storeA).2 = Response.errorJson 404 "Bill not found" ∧
      delete_bill 1 (delete_bill 1 storeA).2 =
        (Response.errorJson 404 "Bill not found", (delete_bill 1 storeA).2)) :=
  ⟨(C9_delete_semantics 5 storeA).1 rfl,
    (C9_delete_semantics 1 storeA).2
      (newRow (dateOnlyReq (some "2024-01-01")) "2024-01-01" 1 1) rfl⟩

/-- Claim C8: creating a bill from a field record with a fresh date and then
fetching it by the assigned id returns exactly the supplied field values
(`newRow` binds each supplied value, substituting 0 for omitted keys), plus
the assigned id and timestamps. -/
theorem C8_round_trip (d : RequestData) (now : Nat) (s : Store) (dt : String)
    (hdt : d.date = some dt) (htaken : dateTaken s dt = false)
    (hfresh : ∀ b ∈ s.bills, b.id < s.nextId) :
    create_bill (some d) now s =
      (Response.billJson 201 (newRow d dt s.nextId now),
        { bills := s.bills ++ [newRow d dt s.nextId now], nextId := s.nextId + 1 }) ∧
    get_bill s.nextId (create_bill (some d) now s).2 =
      Response.billJson 200 (newRow d dt s.nextId now) := by
  have h1 : create_bill (some d) now s =
      (Response.billJson 201 (newRow d dt s.nextId now),
        { bills := s.bills ++ [newRow d dt s.nextId now], nextId := s.nextId + 1 }) := by
    simp [create_bill, hdt, htaken]
  have hnone : s.bills.find? (fun b => b.id == s.nextId) = none :=
    List.find?_eq_none.mpr (fun x hx => by simp [Nat.ne_of_lt (hfresh x hx)])
  refine ⟨h1, ?_⟩
  rw [h1]
  simp [get_bill, findById, List.find?_append, hnone, newRow]

/-- Witness for C8: creating a bill with a supplied `gas_cost` and a fresh
date in `storeA`, then fetching id 2, returns that bill. -/
theorem C8_witness :
    create_bill
        (some { dateOnlyReq (some "2024-03-03") with gas_cost := some (SqlValue.str "5") })
        7 storeA =
      (Response.billJson 201
          (newRow { dateOnlyReq (some "2024-03-03") with gas_cost := some (SqlValue.str "5") }
            "2024-03-03" storeA.nextId 7),
        { bills := storeA.bills ++
            [newRow { dateOnlyReq (some "2024-03-03") with gas_cost := some (SqlValue.str "5") }
              "2024-03-03" storeA.nextId 7]
          nextId := storeA.nextId + 1 }) ∧
    get_bill storeA.nextId
        (create_bill
          (some { dateOnlyReq (some "2024-03-03") with gas_cost := some (SqlValue.str "5") })
          7 storeA).2 =
      Response.billJson 200
        (newRow { dateOnlyReq (some "2024-03-03") with gas_cost := some (SqlValue.str "5") }
          "2024-03-03" storeA.nextId 7) :=
  C8_round_trip
    { dateOnlyReq (some "2024-03-03") with gas_cost := some (SqlValue.str "5") }
    7 storeA "2024-03-03" rfl (by decide) (by decide)

/-- Re-selecting by id after an id-preserving row map finds the image of the
originally selected row. -/
theorem find?_map_preserves_id (l : List Bill) (i : Nat) (f : Bill → Bill)
    (hf : ∀ b, (f b).id = b.id) :
    (l.find? (fun b => b.id == i)).map f = (l.map f).find? (fun b => b.id == i) := by
  rw [List.find?_map]
  have hcomp : ((fun b => b.id == i) ∘ f) = fun b : Bill => b.id == i :=
    funext fun b => by simp [Function.comp, hf b]
  rw [hcomp]

/-- Claim C7: a successful update leaves `id` and `created_at` untouched,
refreshes `updated_at`, overwrites `date` and all nine cost/usage columns
with the bound values, and (on the JSON entry point) returns the full updated
bill.  The form entry point performs the same write and redirects. -/
theorem C7_update_frame :
    (∀ i d now s a dt, findById s i = some a → d.date = some dt →
        s.bills.any (fun b2 => b2.id != i && b2.date == dt) = false →
        update_bill i (some d) now s =
          (Response.billJson 200 (updateRow a dt d now),
            { bills := s.bills.map (fun b => if b.id == i then updateRow b dt d now else b)
              nextId := s.nextId }) ∧
        (updateRow a dt d now).id = a.id ∧
        (updateRow a dt d now).created_at = a.created_at ∧
        (updateRow a dt d now).updated_at = now ∧
        (updateRow a dt d now).date = dt ∧
        (updateRow a dt d now).gas_cost = getD0 d.gas_cost ∧
        (updateRow a dt d now).electricity_delivery_cost = getD0 d.electricity_delivery_cost ∧
        (updateRow a dt d now).electricity_generation_cost = getD0 d.electricity_generation_cost ∧
        (updateRow a dt d now).other_cost = getD0 d.other_cost ∧
        (updateRow a dt d now).gas_therms = getD0 d.gas_therms ∧
        (updateRow a dt d now).electricity_on_peak_kwh = getD0 d.electricity_on_peak_kwh ∧
        (updateRow a dt d now).electricity_off_peak_kwh = getD0 d.electricity_off_peak_kwh ∧
        (updateRow a dt d now).electricity_super_off_peak_kwh =
          getD0 d.electricity_super_off_peak_kwh) ∧
    (∀ i form now s a dt, findById s i = some a → form.date = some dt → dt ≠ "" →
        s.bills.any (fun b2 => b2.id != i && b2.date == dt) = false →
        update_bill_form i form now s =
          (FormResponse.redirectToList,
            { bills := s.bills.map (fun b => if b.id == i then updateRowForm b dt form now else b)
              nextId := s.nextId }) ∧
        (updateRowForm a dt form now).id = a.id ∧
        (updateRowForm a dt form now).created_at = a.created_at ∧
        (updateRowForm a dt form now).updated_at = now) := by
  constructor
  · intro i d now s a dt hfind hdt hany
    refine ⟨?_, rfl, rfl, rfl, rfl, rfl, rfl, rfl, rfl, rfl, rfl, rfl, rfl⟩
    have hid : ∀ b : Bill,
        ((if b.id = i then updateRow b dt d now else b)).id = b.id := fun b => by
      by_cases h : b.id = i <;> simp [h, updateRow]
    have hfind2 : s.bills.find? (fun b => b.id == i) = some a := hfind
    have hpa : (a.id == i) = true :=
      @List.find?_some Bill (fun b => b.id == i) a s.bills hfind2
    have hai : a.id = i := by simpa using hpa
    have hsel :
        findById
          { bills := s.bills.map (fun b => if b.id = i then updateRow b dt d now else b)
            nextId := s.nextId } i = some (updateRow a dt d now) := by
      show (s.bills.map (fun b => if b.id = i then updateRow b dt d now else b)).find?
          (fun b => b.id == i) = some (updateRow a dt d now)
      rw [← find?_map_preserves_id s.bills i _ hid]
      rw [hfind2]
      simp [hai]
    simp [update_bill, hfind, hdt, hany, hsel]
  · intro i form now s a dt hfind hdt hne hany
    refine ⟨?_, rfl, rfl, rfl⟩
    simp [update_bill_form, hfind, hdt, hne, hany]

/-- Witness for C7 on `storeA`: updating bill 1 to a fresh date through each
entry point writes the mapped row list; the JSON response carries the updated
bill, whose id and created_at match the old row and whose updated_at is the
new time. -/
theorem C7_witness :
    (update_bill 1 (some (dateOnlyReq (some "2024-05-05"))) 9 storeA =
      (Response.billJson 200
          (updateRow (newRow (dateOnlyReq (some "2024-01-01")) "2024-01-01" 1 1)
            "2024-05-05" (dateOnlyReq (some "2024-05-05")) 9),
        { bills := storeA.bills.map (fun b =>
            if b.id == 1 then updateRow b "2024-05-05" (dateOnlyReq (some "2024-05-05")) 9 else b)
          nextId := storeA.nextId }) ∧
      (updateRow (newRow (dateOnlyReq (some "2024-01-01")) "2024-01-01" 1 1)
          "2024-05-05" (dateOnlyReq (some "2024-05-05")) 9).id =
        (newRow (dateOnlyReq (some "2024-01-01")) "2024-01-01" 1 1).id ∧
      (updateRow (newRow (dateOnlyReq (some "2024-01-01")) "2024-01-01" 1 1)
          "2024-05-05" (dateOnlyReq (some "2024-05-05")) 9).created_at =
        (newRow (dateOnlyReq (some "2024-01-01")) "2024-01-01" 1 1).created_at ∧
      (updateRow (newRow (dateOnlyReq (some "2024-01-01")) "2024-01-01" 1 1)
          "2024-05-05" (dateOnlyReq (some "2024-05-05")) 9).updated_at = 9) ∧
    (update_bill_form 1 (dateOnlyForm (some "2024-05-05")) 9 storeA =
      (FormResponse.redirectToList,
        { bills := storeA.bills.map (fun b =>
            if b.id == 1 then updateRowForm b "2024-05-05" (dateOnlyForm (some "2024-05-05")) 9 else b)
          nextId := storeA.nextId }) ∧
      (updateRowForm (newRow (dateOnlyReq (some "2024-01-01")) "2024-01-01" 1 1)
          "2024-05-05" (dateOnlyForm (some "2024-05-05")) 9).id =
        (newRow (dateOnlyReq (some "2024-01-01")) "2024-01-01" 1 1).id ∧
      (updateRowForm (newRow (dateOnlyReq (some "2024-01-01")) "2024-01-01" 1 1)
          "2024-05-05" (dateOnlyForm (some "2024-05-05")) 9).created_at =
        (newRow (dateOnlyReq (some "2024-01-01")) "2024-01-01" 1 1).created_at ∧
      (updateRowForm (newRow (dateOnlyReq (some "2024-01-01")) "2024-01-01" 1 1)
          "2024-05-05" (dateOnlyForm (some "2024-05-05")) 9).updated_at = 9) :=
  ⟨(by
      have h := C7_update_frame.1 1 (dateOnlyReq (some "2024-05-05")) 9 storeA
        (newRow (dateOnlyReq (some "2024-01-01")) "2024-01-01" 1 1) "2024-05-05"
        rfl rfl (by decide)
      exact ⟨h.1, h.2.1, h.2.2.1, h.2.2.2.1⟩),
    (by
      have h := C7_update_frame.2 1 (dateOnlyForm (some "2024-05-05")) 9 storeA
        (newRow (dateOnlyReq (some "2024-01-01")) "2024-01-01" 1 1) "2024-05-05"
        rfl rfl (by decide) (by decide)
      exact h)⟩

/-- An id-preserving row map keeps the table's id column unchanged. -/
theorem ids_map_update (l : List Bill) (i : Nat) (r : Bill → Bill)
    (hrid : ∀ b, (r b).id = b.id) :
    (l.map (fun b => if b.id == i then r b else b)).map Bill.id = l.map Bill.id := by
  rw [List.map_map]
  refine List.map_congr_left (fun b hb => ?_)
  by_cases h : b.id == i <;> simp [Function.comp, h, hrid b]

/-- Mapping the UPDATE over the table preserves date-uniqueness, given that no
row of a different id already holds the new date. -/
theorem nodup_dates_map_update (l : List Bill) (i : Nat) (dt : String) (r : Bill → Bill)
    (_hrid : ∀ b, (r b).id = b.id) (hrdate : ∀ b, (r b).date = dt)
    (hids : (l.map Bill.id).Nodup) (hdates : (l.map Bill.date).Nodup)
    (hany : (l.any fun b2 => b2.id != i && b2.date == dt) = false) :
    ((l.map (fun b => if b.id == i then r b else b)).map Bill.date).Nodup := by
  have hfresh : ∀ b ∈ l, b.id ≠ i → b.date ≠ dt := by
    intro b hb hbi
    have h2 := List.any_eq_false.mp hany b hb
    simpa [hbi] using h2
  have Pid : l.Pairwise (fun a b => a.id ≠ b.id) := List.pairwise_map.mp hids
  have Pdate : l.Pairwise (fun a b => a.date ≠ b.date) := List.pairwise_map.mp hdates
  have Pout : l.Pairwise (fun a b =>
      ((if a.id == i then r a else a)).date ≠ ((if b.id == i then r b else b)).date) := by
    refine List.Pairwise.imp_of_mem (fun ha hb hab => ?_) (Pid.and Pdate)
    rename_i a b
    by_cases hA : a.id = i <;> by_cases hB : b.id = i
    · exact absurd (hA.trans hB.symm) hab.1
    · have hbd : b.date ≠ dt := hfresh b hb hB
      simp [hA, hB, hrdate a]
      exact fun h => hbd h.symm
    · have had : a.date ≠ dt := hfresh a ha hA
      simp [hA, hB, hrdate b]
      exact had
    · simpa [hA, hB] using hab.2
  rw [List.map_map]
  exact List.pairwise_map.mpr Pout

/-- Inserting a row with the fresh AUTOINCREMENT id and an unused date keeps
the schema invariants. -/
theorem storeInv_insert (s : Store) (b : Bill) (hbid : b.id = s.nextId)
    (hbdt : dateTaken s b.date = false) (h : StoreInv s) :
    StoreInv { bills := s.bills ++ [b], nextId := s.nextId + 1 } := by
  obtain ⟨hid, hbound, hdate⟩ := h
  have hfreshdate : ∀ x ∈ s.bills, x.date ≠ b.date := by
    intro x hx
    have h2 := List.any_eq_false.mp hbdt x hx
    simpa using h2
  refine ⟨?_, ?_, ?_⟩
  · rw [List.map_append, List.nodup_append]
    refine ⟨hid, by simp, ?_⟩
    intro x hx hx2
    simp at hx2
    rcases List.mem_map.mp hx with ⟨c, hc, rfl⟩
    rw [hbid] at hx2
    exact absurd hx2 (Nat.ne_of_lt (hbound c hc))
  · intro c hc
    rcases List.mem_append.mp hc with h1 | h1
    · exact Nat.lt_succ_of_lt (hbound c h1)
    · simp at h1
      rw [h1, hbid]
      exact Nat.lt_succ_self _
  · rw [List.map_append, List.nodup_append]
    refine ⟨hdate, by simp, ?_⟩
    intro x hx hx2
    simp at hx2
    rcases List.mem_map.mp hx with ⟨c, hc, rfl⟩
    exact hfreshdate c hc hx2
  
/-- The UPDATE's row map keeps the schema invariants, given that no row of a
different id already holds the new date. -/
theorem storeInv_mapUpdate (s : Store) (i : Nat) (dt : String) (r : Bill → Bill)
    (hrid : ∀ b, (r b).id = b.id) (hrdate : ∀ b, (r b).date = dt)
    (hany : (s.bills.any fun b2 => b2.id != i && b2.date == dt) = false)
    (h : StoreInv s) :
    StoreInv { bills := s.bills.map (fun b => if b.id == i then r b else b)
               nextId := s.nextId } := by
  obtain ⟨hid, hbound, hdate⟩ := h
  refine ⟨?_, ?_, ?_⟩
  · rw [ids_map_update s.bills i r hrid]
    exact hid
  · intro c hc
    rcases List.mem_map.mp hc with ⟨c0, hc0, rfl⟩
    by_cases hc1 : c0.id == i <;> simp [hc1, hrid c0] <;> exact hbound c0 hc0
  · exact nodup_dates_map_update s.bills i dt r hrid hrdate hid hdate hany

/-- Deleting rows keeps the schema invariants. -/
theorem storeInv_delete (s : Store) (i : Nat) (h : StoreInv s) :
    StoreInv { bills := s.bills.filter (fun b => b.id != i), nextId := s.nextId } := by
  obtain ⟨hid, hbound, hdate⟩ := h
  have hsub := List.filter_sublist (p := fun b : Bill => b.id != i) s.bills
  refine ⟨?_, ?_, ?_⟩
  · exact List.Nodup.sublist (hsub.map Bill.id) hid
  · intro c hc
    exact hbound c (hsub.mem hc)
  · exact List.Nodup.sublist (hsub.map Bill.date) hdate

/-- Every request served through either entry point preserves the schema
invariants. -/
theorem storeInv_applyOp (s : Store) (op : Op) (h : StoreInv s) :
    StoreInv (applyOp s op) := by
  cases op with
  | apiCreate data now =>
    rcases data with _ | d
    · exact h
    · rcases hdt : d.date with _ | dt
      · simpa [applyOp, create_bill, hdt] using h
      · cases htk : dateTaken s dt with
        | true => simpa [applyOp, create_bill, hdt, htk] using h
        | false =>
          have hres : applyOp s (Op.apiCreate (some d) now) =
              { bills := s.bills ++ [newRow d dt s.nextId now], nextId := s.nextId + 1 } := by
            simp [applyOp, create_bill, hdt, htk]
          rw [hres]
          exact storeInv_insert s (newRow d dt s.nextId now) rfl htk h
  | apiUpdate i data now =>
    rcases data with _ | d
    · exact h
    · rcases hf : findById s i with _ | a
      · simpa [applyOp, update_bill, hf] using h
      · rcases hdt : d.date with _ | dt
        · simpa [applyOp, update_bill, hf, hdt] using h
        · cases hany : s.bills.any (fun b2 => b2.id != i && b2.date == dt) with
          | true => simpa [applyOp, update_bill, hf, hdt, hany] using h
          | false =>
            have hres : applyOp s (Op.apiUpdate i (some d) now) =
                { bills := s.bills.map (fun b => if b.id == i then updateRow b dt d now else b)
                  nextId := s.nextId } := by
              simp [applyOp, update_bill, hf, hdt, hany]
              split <;> rfl
            rw [hres]
            exact storeInv_mapUpdate s i dt _ (fun b => rfl) (fun b => rfl) hany h
  | apiDelete i =>
    rcases hf : findById s i with _ | a
    · simpa [applyOp, delete_bill, hf] using h
    · have hres : applyOp s (Op.apiDelete i) =
          { bills := s.bills.filter (fun b => b.id != i), nextId := s.nextId } := by
        simp [applyOp, delete_bill, hf]
      rw [hres]
      exact storeInv_delete s i h
  | formCreate f now =>
    rcases hdt : f.date with _ | dt
    · simpa [applyOp, create_bill_form, hdt] using h
    · by_cases hne : dt = ""
      · simpa [applyOp, create_bill_form, hdt, hne] using h
      · cases htk : dateTaken s dt with
        | true => simpa [applyOp, create_bill_form, hdt, hne, htk] using h
        | false =>
          have hres : applyOp s (Op.formCreate f now) =
              { bills := s.bills ++ [newRowForm f dt s.nextId now], nextId := s.nextId + 1 } := by
            simp [applyOp, create_bill_form, hdt, hne, htk]
          rw [hres]
          exact storeInv_insert s (newRowForm f dt s.nextId now) rfl htk h
  | formUpdate i f now =>
    rcases hdt : f.date with _ | dt
    · simpa [applyOp, update_bill_form, hdt] using h
    · by_cases hne : dt = ""
      · simpa [applyOp, update_bill_form, hdt, hne] using h
      · rcases hf : findById s i with _ | a
        · simpa [applyOp, update_bill_form, hdt, hne, hf] using h
        · cases hany : s.bills.any (fun b2 => b2.id != i && b2.date == dt) with
          | true => simpa [applyOp, update_bill_form, hdt, hne, hf, hany] using h
          | false =>
            have hres : applyOp s (Op.formUpdate i f now) =
                { bills := s.bills.map (fun b =>
                    if b.id == i then updateRowForm b dt f now else b)
                  nextId := s.nextId } := by
              simp [applyOp, update_bill_form, hdt, hne, hf, hany]
            rw [hres]
            exact storeInv_mapUpdate s i dt _ (fun b => rfl) (fun b => rfl) hany h

/-- Serving any request sequence from an invariant-satisfying state lands in
an invariant-satisfying state. -/
theorem storeInv_foldl (ops : List Op) (s0 : Store) (h : StoreInv s0) :
    StoreInv (ops.foldl applyOp s0) := by
  induction ops generalizing s0 with
  | nil => exact h
  | cons op rest ih => exact ih _ (storeInv_applyOp s0 op h)

/-- The freshly-initialised database satisfies the schema invariants. -/
theorem storeInv_emptyStore : StoreInv emptyStore :=
  ⟨List.nodup_nil, fun b hb => absurd hb (List.not_mem_nil b), List.nodup_nil⟩

/-- Claim C5: date uniqueness is an invariant of every reachable store state —
no two bills ever hold the same date — and creating a second bill with a date
already in use fails with the unique-constraint error, leaving the store (in
particular its length) unchanged. -/
theorem C5_date_uniqueness (s : Store) :
    (Reachable s → (s.bills.map Bill.date).Nodup) ∧
    (∀ d now dt, d.date = some dt → dateTaken s dt = true →
      create_bill (some d) now s =
        (Response.errorJson 400 "A bill with this date already exists", s) ∧
      (create_bill (some d) now s).2.bills.length = s.bills.length) := by
  constructor
  · rintro ⟨ops, rfl⟩
    exact (storeInv_foldl ops emptyStore storeInv_emptyStore).2.2
  · intro d now dt hdt htk
    have h1 : create_bill (some d) now s =
        (Response.errorJson 400 "A bill with this date already exists", s) := by
      simp [create_bill, hdt, htk]
    exact ⟨h1, by rw [h1]⟩

/-- Witness for C5: `storeAB` is reachable (two creates) and has pairwise
distinct dates; creating a bill with the already-used date 2024-01-01 fails
and leaves the list length unchanged. -/
theorem C5_witness :
    (storeAB.bills.map Bill.date).Nodup ∧
    (create_bill (some (dateOnlyReq (some "2024-01-01"))) 9 storeAB =
        (Response.errorJson 400 "A bill with this date already exists", storeAB) ∧
      (create_bill (some (dateOnlyReq (some "2024-01-01"))) 9 storeAB).2.bills.length =
        storeAB.bills.length) :=
  ⟨(C5_date_uniqueness storeAB).1
      ⟨[Op.apiCreate (some (dateOnlyReq (some "2024-01-01"))) 1,
        Op.apiCreate (some (dateOnlyReq (some "2024-02-02"))) 2], rfl⟩,
    (C5_date_uniqueness storeAB).2 (dateOnlyReq (some "2024-01-01")) 9 "2024-01-01"
      rfl (by decide)⟩

/-- The descending-date order used by `ORDER BY date DESC` is transitive. -/
theorem dateDescLe_trans (a b c : Bill) (h1 : dateDescLe a b = true)
    (h2 : dateDescLe b c = true) : dateDescLe a c = true := by
  simp only [dateDescLe, decide_eq_true_eq] at *
  exact le_trans h2 h1

/-- The descending-date order used by `ORDER BY date DESC` is total. -/
theorem dateDescLe_total (a b : Bill) : (dateDescLe a b || dateDescLe b a) = true := by
  simp only [dateDescLe, Bool.or_eq_true, decide_eq_true_eq]
  exact (le_total b.date a.date).imp id id

/-- In a list strictly sorted by ascending date, an element survives `drop k`
exactly when fewer than `length - k` elements have a strictly later date. -/
theorem mem_drop_iff_of_sorted (l : List Bill)
    (hs : l.Pairwise (fun a b => a.date < b.date)) (k : Nat) (b : Bill) (hb : b ∈ l) :
    (b ∈ l.drop k ↔
      (l.filter (fun c => decide (b.date < c.date))).length < l.length - k) := by
  induction l generalizing k with
  | nil => cases hb
  | cons a t ih =>
    obtain ⟨ha, hst⟩ := List.pairwise_cons.mp hs
    cases k with
    | zero =>
      refine iff_of_true hb ?_
      exact List.length_filter_lt_length_iff_exists.mpr
        ⟨b, hb, fun hh => (lt_irrefl b.date) (of_decide_eq_true hh)⟩
    | succ j =>
      have hlen : (a :: t).length - (j + 1) = t.length - j := by
        simp [Nat.succ_sub_succ]
      rcases List.mem_cons.mp hb with rfl | hbt
      · have hft : t.filter (fun c => decide (b.date < c.date)) = t :=
          List.filter_eq_self.mpr (fun x hx => decide_eq_true (ha x hx))
        have hfilter :
            ((b :: t).filter (fun c => decide (b.date < c.date))).length = t.length := by
          rw [@List.filter_cons_of_neg Bill (fun c => decide (b.date < c.date)) b t
            (fun hh => (lt_irrefl b.date) (of_decide_eq_true hh)), hft]
        refine iff_of_false ?_ ?_
        · intro hmem
          have hmem2 : b ∈ t := List.mem_of_mem_drop hmem
          exact absurd (ha b hmem2) (lt_irrefl b.date)
        · rw [hfilter, hlen]
          omega
      · have hnotlt : ¬b.date < a.date := lt_asymm (ha b hbt)
        have hfilter :
            ((a :: t).filter (fun c => decide (b.date < c.date))).length =
              (t.filter (fun c => decide (b.date < c.date))).length := by
          rw [@List.filter_cons_of_neg Bill (fun c => decide (b.date < c.date)) a t
            (fun hh => hnotlt (of_decide_eq_true hh))]
        rw [List.drop_succ_cons, hfilter, hlen]
        exact ih hst j hbt

/-- Claim C6: for every store whose bills have pairwise-distinct dates (the
reachable-state invariant), `history false` returns all bills in strictly
ascending date order, and `history true` returns exactly the bills with the
13 most recent dates, in the same ascending order (its value is the final
segment of the full chronological listing, and a bill is in the window
exactly when fewer than 13 bills have a later date). -/
theorem C6_history_window (s : Store) (hnd : (s.bills.map Bill.date).Nodup) :
    (history false s).Perm s.bills ∧
    (history false s).Pairwise (fun a b => a.date < b.date) ∧
    history true s = (history false s).drop (s.bills.length - 13) ∧
    (∀ b ∈ s.bills,
      (b ∈ history true s ↔
        (s.bills.filter (fun b2 => decide (b.date < b2.date))).length < 13)) := by
  have hperm : (s.bills.mergeSort dateDescLe).Perm s.bills :=
    List.mergeSort_perm s.bills dateDescLe
  have hpermA : (history false s).Perm s.bills :=
    ((s.bills.mergeSort dateDescLe).reverse_perm).trans hperm
  have hsorted : (s.bills.mergeSort dateDescLe).Pairwise
      (fun a b => dateDescLe a b = true) :=
    List.sorted_mergeSort dateDescLe_trans dateDescLe_total s.bills
  have hdesc : (s.bills.mergeSort dateDescLe).Pairwise
      (fun a b => b.date ≤ a.date) :=
    hsorted.imp (fun h => by simpa [dateDescLe] using h)
  have hasc : (history false s).Pairwise (fun a b => a.date ≤ b.date) :=
    List.pairwise_reverse.mpr hdesc
  have hndA : ((history false s).map Bill.date).Nodup :=
    (hpermA.map Bill.date).symm.nodup hnd
  have hneA : (history false s).Pairwise (fun a b => a.date ≠ b.date) :=
    List.pairwise_map.mp hndA
  have hstrict : (history false s).Pairwise (fun a b => a.date < b.date) :=
    (hasc.and hneA).imp (fun h => lt_of_le_of_ne h.1 h.2)
  have hlenS : (s.bills.mergeSort dateDescLe).length = s.bills.length := hperm.length_eq
  have hwin : history true s = (history false s).drop (s.bills.length - 13) := by
    show ((s.bills.mergeSort dateDescLe).take 13).reverse =
      ((s.bills.mergeSort dateDescLe).reverse).drop (s.bills.length - 13)
    rw [List.reverse_take, hlenS]
  refine ⟨hpermA, hstrict, hwin, ?_⟩
  intro b hb
  have hbA : b ∈ history false s := hpermA.symm.subset hb
  have hlenA : (history false s).length = s.bills.length := hpermA.length_eq
  have hfilt :
      ((history false s).filter (fun c => decide (b.date < c.date))).length =
        (s.bills.filter (fun c => decide (b.date < c.date))).length :=
    (hpermA.filter (fun c => decide (b.date < c.date))).length_eq
  have hfl : (s.bills.filter (fun c => decide (b.date < c.date))).length <
      s.bills.length :=
    hfilt ▸ hlenA ▸ (List.length_filter_lt_length_iff_exists.mpr
      ⟨b, hbA, by simp⟩)
  rw [hwin, mem_drop_iff_of_sorted (history false s) hstrict
    (s.bills.length - 13) b hbA, hfilt, hlenA]
  omega

/-- Witness for C6 on the reachable two-bill store `storeAB` (dates
2024-01-01 and 2024-02-02): the chronological listing is a permutation of the
table in strictly ascending date order, the windowed listing is its final
segment, and bill 2 is in the window since fewer than 13 bills have a later
date. -/
theorem C6_witness :
    (history false storeAB).Perm storeAB.bills ∧
    (history false storeAB).Pairwise (fun a b => a.date < b.date) ∧
    history true storeAB = (history false storeAB).drop (storeAB.bills.length - 13) ∧
    (newRow (dateOnlyReq (some "2024-02-02")) "2024-02-02" 2 2 ∈ history true storeAB ↔
      (storeAB.bills.filter (fun b2 =>
          decide ((newRow (dateOnlyReq (some "2024-02-02")) "2024-02-02" 2 2).date <
            b2.date))).length < 13) := by
  have h := C6_history_window storeAB (by decide)
  exact ⟨h.1, h.2.1, h.2.2.1,
    h.2.2.2 (newRow (dateOnlyReq (some "2024-02-02")) "2024-02-02" 2 2) (by decide)⟩
